import Mathlib

/-!
Verification development for the BLE-to-USB HID bridge firmware.

The C sources are shallowly embedded: bytes are `Nat`, byte buffers are
`List Nat`, the `uint32_t` statistics counters wrap modulo `2^32`, and the
callback-driven USB sink is modelled by explicit state passing with an
environment record supplying the outcomes of the external primitives
(`k_sem_take` completion within the 100 ms window, `hid_int_ep_write`
success, `bt_scan_start` success).
-/

namespace BleToHid

abbrev Byte := Nat

/-- NKRO report parameters, from hid_bridge.c. -/
def NKRO_REPORT_LEN : Nat := 15

def NKRO_BITMAP_OFFSET : Nat := 2

def NKRO_BITMAP_LEN : Nat := 13

def BOOT_REPORT_LEN : Nat := 8

def BOOT_MAX_KEYS : Nat := 6

def APP_USB_HID_REPORT_SIZE : Nat := 8

/-- Timeout passed to `k_sem_take` in `app_usb_hid_send_report` (`K_MSEC(100)`). -/
def HID_SEM_TIMEOUT_MS : Nat := 100

def UINT32_MOD : Nat := 2 ^ 32

/-- Increment of a `uint32_t` counter. -/
def inc32 (x : Nat) : Nat := (x + 1) % UINT32_MOD

/-- Key slots produced by the scanning loop of `nkro_to_boot` (hid_bridge.c):
the nested loop walks bitmap bytes 0..12 and bits 0..7, appending keycode
`byte*8 + bit` whenever its bit is set and the keycode is at least 4, and
stops as soon as 6 keys have been collected (rendered by `take`). -/
def nkroKeys (nkro : List Byte) : List Nat :=
  ((List.range NKRO_BITMAP_LEN).flatMap (fun byte =>
    (List.range 8).filterMap (fun bit =>
      if (nkro.getD (NKRO_BITMAP_OFFSET + byte) 0).testBit bit ∧ 4 ≤ byte * 8 + bit then
        some (byte * 8 + bit)
      else
        none))).take BOOT_MAX_KEYS

/-- Conversion of a ZMK NKRO report (15 bytes) to boot keyboard format
(8 bytes), from `nkro_to_boot` in hid_bridge.c: the boot buffer is zeroed,
byte 0 receives the modifier byte, byte 1 stays 0 (reserved), and the
collected keycodes fill slots 2.. with the remaining slots left at 0. -/
def nkro_to_boot (nkro : List Byte) : List Byte :=
  nkro.getD 0 0 :: 0 ::
    (nkroKeys nkro ++ List.replicate (BOOT_MAX_KEYS - (nkroKeys nkro).length) 0)

/-- Construction of `usb_report` in `hid_bridge_handle_report` (hid_bridge.c):
a 15-byte report goes through `nkro_to_boot`, an 8-byte report is copied
verbatim, and any other length is copied best-effort, `min(len, 8)` bytes
into the zero-initialised 8-byte buffer. -/
def translate (report : List Byte) : List Byte :=
  if report.length = NKRO_REPORT_LEN then
    nkro_to_boot report
  else if report.length = BOOT_REPORT_LEN then
    report
  else
    report.take BOOT_REPORT_LEN ++
      List.replicate (BOOT_REPORT_LEN - min report.length BOOT_REPORT_LEN) 0

/-- Spec-side description of the bitmap scan: the keycodes `k ≥ 4` whose bit
(bit `k % 8` of bitmap byte `k / 8`) is set, listed in ascending order. -/
def specSetKeycodes (nkro : List Byte) : List Nat :=
  (List.range 104).filter
    (fun k => decide (4 ≤ k ∧ (nkro.getD (NKRO_BITMAP_OFFSET + k / 8) 0).testBit (k % 8)))

/-- Spec-side packing invariant on the six key slots: no empty slot lies
between two occupied slots. -/
def noGapSlots (slots : List Byte) : Prop :=
  ∀ k, k < slots.length → ∀ j, j < k → ∀ i, i < j →
    slots.getD i 0 ≠ 0 → slots.getD k 0 ≠ 0 → slots.getD j 0 ≠ 0

instance (slots : List Byte) : Decidable (noGapSlots slots) := by
  unfold noGapSlots
  infer_instance

/-- State owned by usb_hid.c: `usb_configured` (set by `status_cb`) and the
binary semaphore `hid_sem` guarding the single in-flight report
(`true` = slot free, count 1; `false` = slot held, count 0). -/
structure UsbState where
  usb_configured : Bool
  hid_sem : Bool
deriving DecidableEq, Repr

/-- Return status of `app_usb_hid_send_report`: `ok` is 0, `notReady` is
`-ENOTCONN`, `busy` is the nonzero return of a timed-out `k_sem_take`, and
`writeErr` is a nonzero return of `hid_int_ep_write`. -/
inductive SendResult
  | ok
  | notReady
  | busy
  | writeErr
deriving DecidableEq, Repr

/-- Outcomes of the external primitives during one `app_usb_hid_send_report`
call: whether the USB completion interrupt (`int_in_ready_cb`) fires inside
the 100 ms `k_sem_take` window, and whether `hid_int_ep_write` succeeds. -/
structure SendEnv where
  completionArrives : Bool
  writeOk : Bool
deriving DecidableEq, Repr

/-- Zephyr-style log severities (ERR=1, WRN=2, INF=3, DBG=4). -/
inductive LogLevel
  | err
  | wrn
  | inf
  | dbg
deriving DecidableEq, Repr

def LogLevel.sev : LogLevel → Nat
  | .err => 1
  | .wrn => 2
  | .inf => 3
  | .dbg => 4

/-- Log statements of usb_hid.c and hid_bridge.c relevant to the claims. -/
inductive LogMsg
  | hidReportTimeout
  | failedToSendHidReport
  | releasingAllKeys
  | bleDisconnectedReleasingAllKeys
  | unexpectedReportLength
deriving DecidableEq, Repr

structure LogEntry where
  level : LogLevel
  msg : LogMsg
deriving DecidableEq, Repr

/-- Whether a log entry counts as reporting a failure (warning or error). -/
def LogEntry.isFailureLog (e : LogEntry) : Bool := e.level.sev ≤ 2

/-- Result of one `app_usb_hid_send_report` call: return status, sink state
after the call, and the log statements executed during the call, in order. -/
structure SendOut where
  result : SendResult
  state : UsbState
  logs : List LogEntry
  written : Option (List Byte)
deriving DecidableEq, Repr

/-- Behaviour of `k_sem_take(&hid_sem, K_MSEC(100))` on the binary semaphore:
succeeds at once when the semaphore is free, succeeds within the window when
`int_in_ready_cb` gives it during the wait, and otherwise times out leaving
the semaphore as it was. Returns (taken, semaphore afterwards). -/
def k_sem_take_timeout (sem : Bool) (completionArrives : Bool) : Bool × Bool :=
  if sem then (true, false)
  else if completionArrives then (true, false)
  else (false, sem)

/-- `int_in_ready_cb` (usb_hid.c): the asynchronous USB completion callback
gives `hid_sem` back, releasing the in-flight slot. -/
def int_in_ready_cb (s : UsbState) : UsbState :=
  { s with hid_sem := true }

/-- `app_usb_hid_send_report` (usb_hid.c): fail with `-ENOTCONN` when USB is
not configured; otherwise wait up to 100 ms for the in-flight slot and fail
on timeout (logging a warning); otherwise write the 8-byte report to the
interrupt endpoint, giving the slot back and logging an error if the write
fails, and returning 0 with the slot still held on success. -/
def app_usb_hid_send_report (s : UsbState) (report : List Byte) (env : SendEnv) : SendOut :=
  if ¬ s.usb_configured then
    { result := .notReady, state := s, logs := [], written := none }
  else
    match k_sem_take_timeout s.hid_sem env.completionArrives with
    | (false, _) =>
      { result := .busy, state := s, logs := [⟨.wrn, .hidReportTimeout⟩], written := none }
    | (true, semAfter) =>
      if env.writeOk then
        { result := .ok, state := { s with hid_sem := semAfter }, logs := [],
          written := some (report.take APP_USB_HID_REPORT_SIZE) }
      else
        { result := .writeErr, state := { s with hid_sem := true },
          logs := [⟨.err, .failedToSendHidReport⟩], written := none }

/-- The all-zero canonical report (`empty_report` in usb_hid.c). -/
def empty_report : List Byte := List.replicate APP_USB_HID_REPORT_SIZE 0

/-- `app_usb_hid_release_all` (usb_hid.c): log at DBG level and send the
all-zero report. -/
def app_usb_hid_release_all (s : UsbState) (env : SendEnv) : SendOut :=
  let out := app_usb_hid_send_report s empty_report env
  { out with logs := ⟨.dbg, .releasingAllKeys⟩ :: out.logs }

/-- `app_usb_hid_ready` (usb_hid.c). -/
def app_usb_hid_ready (s : UsbState) : Bool := s.usb_configured

/-- State owned by hid_bridge.c: the three `uint32_t` statistics counters,
the `last_report` buffer, plus the sink state it drives. -/
structure BridgeState where
  reports_received : Nat
  reports_forwarded : Nat
  reports_dropped : Nat
  last_report : List Byte
  usb : UsbState
deriving DecidableEq, Repr

/-- Result of one `hid_bridge_handle_report` invocation: the state after the
call, the report passed to `app_usb_hid_send_report` when that call was
reached (`none` when USB was not ready), and whether the unexpected-length
warning was logged. -/
structure HandleOut where
  state : BridgeState
  sinkCall : Option (List Byte)
  warned : Bool
deriving DecidableEq, Repr

/-- `hid_bridge_handle_report` (hid_bridge.c): count the report as received,
build `usb_report` (warning on unexpected length), drop when USB is not
ready, otherwise send; a send error counts a drop, success counts a forward
and stores `last_report`. -/
def hid_bridge_handle_report (s : BridgeState) (report : List Byte) (env : SendEnv) :
    HandleOut :=
  let s1 : BridgeState := { s with reports_received := inc32 s.reports_received }
  let usb_report := translate report
  let warned : Bool :=
    !(report.length == NKRO_REPORT_LEN) && !(report.length == BOOT_REPORT_LEN)
  if ¬ app_usb_hid_ready s1.usb then
    { state := { s1 with reports_dropped := inc32 s1.reports_dropped },
      sinkCall := none, warned := warned }
  else
    let out := app_usb_hid_send_report s1.usb usb_report env
    if out.result ≠ .ok then
      { state := { s1 with reports_dropped := inc32 s1.reports_dropped, usb := out.state },
        sinkCall := some usb_report, warned := warned }
    else
      { state := { s1 with reports_forwarded := inc32 s1.reports_forwarded,
                           usb := out.state, last_report := usb_report },
        sinkCall := some usb_report, warned := warned }

/-- Iterated report handling: one `hid_bridge_handle_report` invocation per
inbound report, threading the bridge state. -/
def hid_bridge_run (s : BridgeState) : List (List Byte × SendEnv) → BridgeState
  | [] => s
  | (r, env) :: rest => hid_bridge_run (hid_bridge_handle_report s r env).state rest

/-- State owned by ble_central.c: whether `current_conn` is non-NULL and
whether scanning is active. -/
structure BleState where
  current_conn : Bool
  scanning : Bool
deriving DecidableEq, Repr

/-- Whole-system state for the disconnect path. -/
structure SysState where
  ble : BleState
  bridge : BridgeState
deriving DecidableEq, Repr

/-- Externally visible events of the disconnect path: an invocation of
`app_usb_hid_send_report` with a given report, and the start of a new scan
(`bt_scan_start` succeeding inside `ble_central_start_scan`). -/
inductive Event
  | sinkSend (report : List Byte)
  | scanStart
deriving DecidableEq, Repr

def Event.isSinkSend : Event → Bool
  | .sinkSend _ => true
  | .scanStart => false

/-- `hid_bridge_on_disconnect` (hid_bridge.c): call `app_usb_hid_release_all`
(one sink send of the all-zero report, return value ignored) and clear
`last_report`. -/
def hid_bridge_on_disconnect (s : BridgeState) (env : SendEnv) : BridgeState × List Event :=
  let out := app_usb_hid_release_all s.usb env
  ({ s with usb := out.state, last_report := List.replicate 8 0 },
   [Event.sinkSend empty_report])

/-- `ble_central_start_scan` (ble_central.c): a no-op when already scanning
or still connected; otherwise `bt_scan_start`, which may fail (leaving
scanning off) or succeed (scanning begins). -/
def ble_central_start_scan (s : BleState) (scanStartOk : Bool) : BleState × List Event :=
  if s.scanning then (s, [])
  else if s.current_conn then (s, [])
  else if scanStartOk then ({ s with scanning := true }, [Event.scanStart])
  else (s, [])

/-- The `disconnected` connection callback (ble_central.c): run
`hid_bridge_on_disconnect`, drop the reference and NULL `current_conn`, then
restart scanning. Returns the new state and the events in order. -/
def disconnected (s : SysState) (env : SendEnv) (scanStartOk : Bool) :
    SysState × List Event :=
  let p := hid_bridge_on_disconnect s.bridge env
  let ble1 : BleState := { s.ble with current_conn := false }
  let q := ble_central_start_scan ble1 scanStartOk
  ({ ble := q.1, bridge := p.1 }, p.2 ++ q.2)

/-! ### Helper lemmas -/

/-- One scanning step of the bitmap loop, phrased over the absolute keycode. -/
def bitTestOpt (nkro : List Byte) (k : Nat) : Option Nat :=
  if (nkro.getD (NKRO_BITMAP_OFFSET + k / 8) 0).testBit (k % 8) ∧ 4 ≤ k then some k
  else none

lemma range_flatMap_filterMap (m : Nat) (g : Nat → Nat → Option Nat) (h : Nat → Option Nat)
    (hg : ∀ i j, j < m → g i j = h (i * m + j)) :
    ∀ n, (List.range n).flatMap (fun i => (List.range m).filterMap (g i))
        = (List.range (n * m)).filterMap h := by
  intro n
  induction n with
  | zero => simp
  | succ n ih =>
    rw [List.range_succ, List.flatMap_append, ih, Nat.succ_mul, List.range_add,
      List.filterMap_append, List.filterMap_map]
    simp only [List.flatMap_cons, List.flatMap_nil, List.append_nil]
    congr 1
    apply List.filterMap_congr
    intro j hj
    simpa [Function.comp] using hg n j (List.mem_range.mp hj)

lemma filterMap_bitTestOpt (nkro : List Byte) (l : List Nat) :
    l.filterMap (bitTestOpt nkro)
      = l.filter
          (fun k => decide (4 ≤ k ∧ (nkro.getD (NKRO_BITMAP_OFFSET + k / 8) 0).testBit (k % 8))) := by
  rw [← List.filterMap_eq_filter]
  apply List.filterMap_congr
  intro k _
  by_cases hc : 4 ≤ k ∧ (nkro.getD (NKRO_BITMAP_OFFSET + k / 8) 0).testBit (k % 8)
  · have hc2 : (nkro.getD (NKRO_BITMAP_OFFSET + k / 8) 0).testBit (k % 8) ∧ 4 ≤ k :=
      ⟨hc.2, hc.1⟩
    simp [bitTestOpt, Option.guard, hc, hc2]
  · have hc2 : ¬ ((nkro.getD (NKRO_BITMAP_OFFSET + k / 8) 0).testBit (k % 8) ∧ 4 ≤ k) :=
      fun hx => hc ⟨hx.2, hx.1⟩
    simp only [List.getD_eq_getElem?_getD] at hc hc2
    simp [bitTestOpt, Option.guard, hc, hc2]

lemma nkroKeys_eq_spec (nkro : List Byte) :
    nkroKeys nkro = (specSetKeycodes nkro).take 6 := by
  have main : (List.range NKRO_BITMAP_LEN).flatMap (fun byte =>
      (List.range 8).filterMap (fun bit =>
        if (nkro.getD (NKRO_BITMAP_OFFSET + byte) 0).testBit bit ∧ 4 ≤ byte * 8 + bit then
          some (byte * 8 + bit)
        else
          none))
      = (List.range 104).filterMap (bitTestOpt nkro) := by
    have h104 : NKRO_BITMAP_LEN * 8 = 104 := by norm_num [NKRO_BITMAP_LEN]
    rw [← h104]
    apply range_flatMap_filterMap 8
      (fun i j =>
        if (nkro.getD (NKRO_BITMAP_OFFSET + i) 0).testBit j ∧ 4 ≤ i * 8 + j then
          some (i * 8 + j)
        else
          none)
      (bitTestOpt nkro)
    intro i j hj
    have hdiv : (i * 8 + j) / 8 = i := by
      rw [Nat.mul_comm, Nat.mul_add_div (by norm_num)]
      simp [Nat.div_eq_of_lt hj]
    have hmod : (i * 8 + j) % 8 = j := by
      rw [Nat.mul_comm, Nat.mul_add_mod]
      exact Nat.mod_eq_of_lt hj
    simp [bitTestOpt, hdiv, hmod]
  unfold nkroKeys
  rw [main, filterMap_bitTestOpt]
  rfl

lemma specSetKeycodes_sorted (nkro : List Byte) :
    List.Sorted (· < ·) (specSetKeycodes nkro) :=
  (List.sorted_lt_range 104).filter _

lemma mem_specSetKeycodes (nkro : List Byte) (k : Nat) :
    k ∈ specSetKeycodes nkro ↔
      k < 104 ∧ 4 ≤ k ∧ (nkro.getD (NKRO_BITMAP_OFFSET + k / 8) 0).testBit (k % 8) := by
  simp [specSetKeycodes, List.mem_filter, List.mem_range, and_assoc]

lemma getD_append_left_zero (l l' : List Nat) :
    ∀ m, m < l.length → (l ++ l').getD m 0 = l.getD m 0 := by
  induction l with
  | nil => intro m hm; simp at hm
  | cons a t ih =>
    intro m hm
    cases m with
    | zero => rfl
    | succ m =>
      simp only [List.cons_append, List.getD_cons_succ]
      exact ih m (by simpa using hm)

lemma getD_replicate_zero (p : Nat) : ∀ m, (List.replicate p 0 : List Nat).getD m 0 = 0 := by
  induction p with
  | zero => intro m; cases m <;> rfl
  | succ p ih =>
    intro m
    cases m with
    | zero => rfl
    | succ m =>
      rw [List.replicate_succ, List.getD_cons_succ]
      exact ih m

lemma getD_append_replicate_zero (l : List Nat) (p : Nat) :
    ∀ m, l.length ≤ m → (l ++ List.replicate p 0).getD m 0 = 0 := by
  induction l with
  | nil =>
    intro m _
    rw [List.nil_append]
    exact getD_replicate_zero p m
  | cons a t ih =>
    intro m hm
    cases m with
    | zero => simp at hm
    | succ m =>
      simp only [List.cons_append, List.getD_cons_succ]
      exact ih m (by simpa using hm)

lemma nkroKeys_mem_ge_four (nkro : List Byte) {k : Nat} (hk : k ∈ nkroKeys nkro) :
    4 ≤ k := by
  rw [nkroKeys_eq_spec] at hk
  exact ((mem_specSetKeycodes nkro k).mp (List.mem_of_mem_take hk)).2.1

lemma nkroKeys_getD_ne_zero (nkro : List Byte) {m : Nat} (hm : m < (nkroKeys nkro).length) :
    (nkroKeys nkro).getD m 0 ≠ 0 := by
  have hmem : (nkroKeys nkro).getD m 0 ∈ nkroKeys nkro := by
    rw [List.getD_eq_getElem?_getD, List.getElem?_eq_getElem hm]
    exact List.getElem_mem hm
  have := nkroKeys_mem_ge_four nkro hmem
  omega

/-- The key slots of an NKRO-translated report: the collected keys followed
by zero padding. -/
lemma nkro_to_boot_slots (nkro : List Byte) :
    (nkro_to_boot nkro).drop 2
      = nkroKeys nkro ++ List.replicate (BOOT_MAX_KEYS - (nkroKeys nkro).length) 0 := rfl

lemma noGapSlots_keys_pad (nkro : List Byte) :
    noGapSlots (nkroKeys nkro ++ List.replicate (BOOT_MAX_KEYS - (nkroKeys nkro).length) 0) := by
  intro k hk j hj i hi hne hkne
  set keys := nkroKeys nkro with hkeys
  have hklt : k < keys.length := by
    by_contra hge
    exact hkne (getD_append_replicate_zero keys _ k (Nat.le_of_not_lt hge))
  have hjlt : j < keys.length := Nat.lt_trans hj hklt
  rw [getD_append_left_zero keys _ j hjlt]
  exact nkroKeys_getD_ne_zero nkro hjlt

/-! Reduction lemmas for `app_usb_hid_send_report`. -/

lemma send_not_ready (s : UsbState) (r : List Byte) (env : SendEnv)
    (hc : s.usb_configured = false) :
    app_usb_hid_send_report s r env
      = { result := .notReady, state := s, logs := [], written := none } := by
  unfold app_usb_hid_send_report
  rw [hc]
  simp

lemma send_busy (s : UsbState) (r : List Byte) (env : SendEnv)
    (hc : s.usb_configured = true) (hs : s.hid_sem = false)
    (he : env.completionArrives = false) :
    app_usb_hid_send_report s r env
      = { result := .busy, state := s, logs := [⟨.wrn, .hidReportTimeout⟩],
          written := none } := by
  unfold app_usb_hid_send_report k_sem_take_timeout
  rw [hc, hs, he]
  simp

lemma send_ok (s : UsbState) (r : List Byte) (env : SendEnv)
    (hc : s.usb_configured = true) (hsem : s.hid_sem = true ∨ env.completionArrives = true)
    (hw : env.writeOk = true) :
    app_usb_hid_send_report s r env
      = { result := .ok, state := { s with hid_sem := false }, logs := [],
          written := some (r.take APP_USB_HID_REPORT_SIZE) } := by
  unfold app_usb_hid_send_report k_sem_take_timeout
  rw [hc, hw]
  rcases hsem with h | h
  · rw [h]
    simp
  · rw [h]
    by_cases h2 : s.hid_sem <;> simp [h2]

lemma send_write_err (s : UsbState) (r : List Byte) (env : SendEnv)
    (hc : s.usb_configured = true) (hsem : s.hid_sem = true ∨ env.completionArrives = true)
    (hw : env.writeOk = false) :
    app_usb_hid_send_report s r env
      = { result := .writeErr, state := { s with hid_sem := true },
          logs := [⟨.err, .failedToSendHidReport⟩], written := none } := by
  unfold app_usb_hid_send_report k_sem_take_timeout
  rw [hc, hw]
  rcases hsem with h | h
  · rw [h]
    simp
  · rw [h]
    by_cases h2 : s.hid_sem <;> simp [h2]

/-! Reduction lemmas for `hid_bridge_handle_report`. -/

lemma handle_report_received (s : BridgeState) (r : List Byte) (env : SendEnv) :
    (hid_bridge_handle_report s r env).state.reports_received = inc32 s.reports_received := by
  unfold hid_bridge_handle_report
  dsimp only
  split
  · rfl
  · split
    · rfl
    · rfl

lemma handle_report_warned (s : BridgeState) (r : List Byte) (env : SendEnv) :
    (hid_bridge_handle_report s r env).warned
      = (!(r.length == NKRO_REPORT_LEN) && !(r.length == BOOT_REPORT_LEN)) := by
  unfold hid_bridge_handle_report
  dsimp only
  split
  · rfl
  · split
    · rfl
    · rfl

lemma handle_report_counters (s : BridgeState) (r : List Byte) (env : SendEnv) :
    ((hid_bridge_handle_report s r env).state.reports_forwarded = inc32 s.reports_forwarded ∧
      (hid_bridge_handle_report s r env).state.reports_dropped = s.reports_dropped) ∨
    ((hid_bridge_handle_report s r env).state.reports_forwarded = s.reports_forwarded ∧
      (hid_bridge_handle_report s r env).state.reports_dropped = inc32 s.reports_dropped) := by
  unfold hid_bridge_handle_report
  dsimp only
  split
  · right
    exact ⟨rfl, rfl⟩
  · split
    · right
      exact ⟨rfl, rfl⟩
    · left
      exact ⟨rfl, rfl⟩

lemma handle_report_sinkCall (s : BridgeState) (r : List Byte) (env : SendEnv)
    (hc : s.usb.usb_configured = true) :
    (hid_bridge_handle_report s r env).sinkCall = some (translate r) := by
  unfold hid_bridge_handle_report
  dsimp only
  rw [if_neg]
  · split
    · rfl
    · rfl
  · unfold app_usb_hid_ready
    simp [hc]

lemma handle_report_busy_state (s : BridgeState) (r : List Byte) (env : SendEnv)
    (hc : s.usb.usb_configured = true) (hs : s.usb.hid_sem = false)
    (he : env.completionArrives = false) :
    (hid_bridge_handle_report s r env).state
      = { s with reports_received := inc32 s.reports_received,
                 reports_dropped := inc32 s.reports_dropped } := by
  unfold hid_bridge_handle_report
  dsimp only
  rw [if_neg]
  · rw [send_busy s.usb (translate r) env hc hs he]
    rw [if_pos]
    exact fun h => SendResult.noConfusion h
  · unfold app_usb_hid_ready
    simp [hc]

lemma handle_report_not_ready_state (s : BridgeState) (r : List Byte) (env : SendEnv)
    (hc : s.usb.usb_configured = false) :
    (hid_bridge_handle_report s r env).state
      = { s with reports_received := inc32 s.reports_received,
                 reports_dropped := inc32 s.reports_dropped } := by
  unfold hid_bridge_handle_report
  dsimp only
  rw [if_pos]
  unfold app_usb_hid_ready
  simp [hc]

lemma run_cons (s : BridgeState) (r : List Byte) (env : SendEnv)
    (rest : List (List Byte × SendEnv)) :
    hid_bridge_run s ((r, env) :: rest)
      = hid_bridge_run (hid_bridge_handle_report s r env).state rest := rfl

lemma run_busy :
    ∀ (inputs : List (List Byte × SendEnv)) (s : BridgeState),
      s.usb.usb_configured = true → s.usb.hid_sem = false →
      (∀ p ∈ inputs, (p.2).completionArrives = false) →
      s.reports_dropped < UINT32_MOD →
      (hid_bridge_run s inputs).reports_dropped
          = (s.reports_dropped + inputs.length) % UINT32_MOD ∧
        (hid_bridge_run s inputs).reports_forwarded = s.reports_forwarded := by
  intro inputs
  induction inputs with
  | nil =>
    intro s hc hs _ hd
    simpa [hid_bridge_run] using (Nat.mod_eq_of_lt hd).symm
  | cons p rest ih =>
    intro s hc hs hall hd
    obtain ⟨r, env⟩ := p
    have he : env.completionArrives = false := hall (r, env) (by simp)
    rw [run_cons]
    have hstate := handle_report_busy_state s r env hc hs he
    have hrest : ∀ q ∈ rest, (q.2).completionArrives = false := fun q hq =>
      hall q (List.mem_cons_of_mem _ hq)
    have hMpos : 0 < UINT32_MOD := by norm_num [UINT32_MOD]
    have h1 := ih (hid_bridge_handle_report s r env).state
      (by rw [hstate]; exact hc) (by rw [hstate]; exact hs) hrest
      (by rw [hstate]; exact Nat.mod_lt _ hMpos)
    rcases h1 with ⟨hdrop, hfwd⟩
    constructor
    · rw [hdrop, hstate]
      show (inc32 s.reports_dropped + rest.length) % UINT32_MOD
          = (s.reports_dropped + ((r, env) :: rest).length) % UINT32_MOD
      unfold inc32
      rw [Nat.mod_add_mod]
      congr 1
      simp [List.length_cons]
      omega
    · rw [hfwd, hstate]

lemma run_not_ready :
    ∀ (inputs : List (List Byte × SendEnv)) (s : BridgeState),
      s.usb.usb_configured = false →
      s.reports_dropped < UINT32_MOD →
      (hid_bridge_run s inputs).reports_dropped
          = (s.reports_dropped + inputs.length) % UINT32_MOD ∧
        (hid_bridge_run s inputs).reports_forwarded = s.reports_forwarded := by
  intro inputs
  induction inputs with
  | nil =>
    intro s hc hd
    simpa [hid_bridge_run] using (Nat.mod_eq_of_lt hd).symm
  | cons p rest ih =>
    intro s hc hd
    obtain ⟨r, env⟩ := p
    rw [run_cons]
    have hstate := handle_report_not_ready_state s r env hc
    have hMpos : 0 < UINT32_MOD := by norm_num [UINT32_MOD]
    have h1 := ih (hid_bridge_handle_report s r env).state
      (by rw [hstate]; exact hc) (by rw [hstate]; exact Nat.mod_lt _ hMpos)
    rcases h1 with ⟨hdrop, hfwd⟩
    constructor
    · rw [hdrop, hstate]
      show (inc32 s.reports_dropped + rest.length) % UINT32_MOD
          = (s.reports_dropped + ((r, env) :: rest).length) % UINT32_MOD
      unfold inc32
      rw [Nat.mod_add_mod]
      congr 1
      simp [List.length_cons]
      omega
    · rw [hfwd, hstate]

lemma run_stats_invariant :
    ∀ (inputs : List (List Byte × SendEnv)) (s : BridgeState),
      s.reports_received = s.reports_forwarded + s.reports_dropped →
      s.reports_received + inputs.length < UINT32_MOD →
      (hid_bridge_run s inputs).reports_received
        = (hid_bridge_run s inputs).reports_forwarded
            + (hid_bridge_run s inputs).reports_dropped := by
  intro inputs
  induction inputs with
  | nil =>
    intro s hinv _
    exact hinv
  | cons p rest ih =>
    intro s hinv hbound
    obtain ⟨r, env⟩ := p
    rw [run_cons]
    have hlen : ((r, env) :: rest).length = rest.length + 1 := rfl
    have hb1 : s.reports_received + 1 < UINT32_MOD := by
      rw [hlen] at hbound
      omega
    have hrec' : (hid_bridge_handle_report s r env).state.reports_received
        = s.reports_received + 1 := by
      rw [handle_report_received]
      unfold inc32
      exact Nat.mod_eq_of_lt hb1
    have hinv' : (hid_bridge_handle_report s r env).state.reports_received
        = (hid_bridge_handle_report s r env).state.reports_forwarded
            + (hid_bridge_handle_report s r env).state.reports_dropped := by
      rcases handle_report_counters s r env with ⟨hf, hd⟩ | ⟨hf, hd⟩
      · rw [hrec', hf, hd]
        unfold inc32
        rw [Nat.mod_eq_of_lt (by omega)]
        omega
      · rw [hrec', hf, hd]
        unfold inc32
        rw [Nat.mod_eq_of_lt (by omega)]
        omega
    have hbound' : (hid_bridge_handle_report s r env).state.reports_received
        + rest.length < UINT32_MOD := by
      rw [hrec']
      rw [hlen] at hbound
      omega
    exact ih _ hinv' hbound'

/-! ### Claims -/

/-- C2: for every 15-byte raw report, the translator outputs a canonical
report whose modifier byte equals input byte 0, whose reserved byte is 0,
and whose six key slots contain, in ascending keycode order, the at most 6
smallest keycodes `k ≥ 4` whose bitmap bit (bit `k % 8` of bitmap byte
`k / 8`) is set, remaining slots 0; keycodes 0–3 never appear, and when more
than 6 keycodes are set exactly the 6 lowest-valued ones appear (the first 6
of the ascending list of all set keycodes). -/
theorem C2_bitmap_translation (nkro : List Byte) (hlen : nkro.length = NKRO_REPORT_LEN) :
    translate nkro
        = nkro.getD 0 0 :: 0 ::
            ((specSetKeycodes nkro).take 6 ++
              List.replicate (6 - ((specSetKeycodes nkro).take 6).length) 0)
      ∧ List.Sorted (· < ·) ((specSetKeycodes nkro).take 6)
      ∧ (∀ k, k ∈ specSetKeycodes nkro ↔
          k < 104 ∧ 4 ≤ k ∧ (nkro.getD (NKRO_BITMAP_OFFSET + k / 8) 0).testBit (k % 8))
      ∧ (∀ k ∈ (specSetKeycodes nkro).take 6, 4 ≤ k) := by
  have ht : translate nkro = nkro_to_boot nkro := by
    unfold translate
    rw [if_pos hlen]
  refine ⟨?_, ?_, mem_specSetKeycodes nkro, ?_⟩
  · rw [ht]
    unfold nkro_to_boot
    rw [nkroKeys_eq_spec]
    rfl
  · exact List.Pairwise.take (specSetKeycodes_sorted nkro)
  · intro k hk
    exact ((mem_specSetKeycodes nkro k).mp (List.mem_of_mem_take hk)).2.1

/-- Witness for C2 at a concrete 15-byte report with one set bit
(keycode 4) and modifier 2. -/
theorem C2_bitmap_translation_witness :
    ([2, 0, 16, 0, 0, 0, 0, 0, 0, 0, 0, 0, 0, 0, 0] : List Byte).length = NKRO_REPORT_LEN
      ∧ translate [2, 0, 16, 0, 0, 0, 0, 0, 0, 0, 0, 0, 0, 0, 0] = [2, 0, 4, 0, 0, 0, 0, 0] := by
  have h := C2_bitmap_translation [2, 0, 16, 0, 0, 0, 0, 0, 0, 0, 0, 0, 0, 0, 0] (by decide)
  refine ⟨by decide, ?_⟩
  rw [h.1]
  decide

/-- C3: translation of an 8-byte report is the identity, and an input shorter
than 8 bytes is copied and zero-padded to 8 bytes. -/
theorem C3_identity_translation :
    (∀ x : List Byte, x.length = BOOT_REPORT_LEN → translate x = x)
      ∧ (∀ x : List Byte, x.length < BOOT_REPORT_LEN →
          translate x = x ++ List.replicate (BOOT_REPORT_LEN - x.length) 0) := by
  constructor
  · intro x hx
    have h15 : ¬ x.length = NKRO_REPORT_LEN := by
      rw [hx]
      decide
    unfold translate
    rw [if_neg h15, if_pos hx]
  · intro x hx
    have h15 : ¬ x.length = NKRO_REPORT_LEN := by
      unfold BOOT_REPORT_LEN at hx
      unfold NKRO_REPORT_LEN
      omega
    have h8 : ¬ x.length = BOOT_REPORT_LEN := Nat.ne_of_lt hx
    have hle : x.length ≤ BOOT_REPORT_LEN := Nat.le_of_lt hx
    unfold translate
    rw [if_neg h15, if_neg h8, List.take_of_length_le hle, Nat.min_eq_left hle]

/-- Witness for C3: the identity on a full boot report and zero padding of a
3-byte report. -/
theorem C3_identity_translation_witness :
    translate [2, 0, 4, 0, 5, 0, 6, 9] = [2, 0, 4, 0, 5, 0, 6, 9]
      ∧ translate [2, 0, 4] = [2, 0, 4, 0, 0, 0, 0, 0] := by
  have h := C3_identity_translation
  refine ⟨h.1 [2, 0, 4, 0, 5, 0, 6, 9] (by decide), ?_⟩
  rw [h.2 [2, 0, 4] (by decide)]
  decide

/-- C5: while the Output Sink rejects every send attempt — because the host
interface is not configured, or because the in-flight slot stays busy with
no completion arriving in any wait window — N consecutive report deliveries
increase `reports_dropped` by exactly N and leave `reports_forwarded`
unchanged. -/
theorem C5_backpressure_drop_accounting (s : BridgeState)
    (inputs : List (List Byte × SendEnv))
    (hrej : s.usb.usb_configured = false
      ∨ (s.usb.hid_sem = false ∧ ∀ p ∈ inputs, (p.2).completionArrives = false))
    (hd : s.reports_dropped + inputs.length < UINT32_MOD) :
    (hid_bridge_run s inputs).reports_dropped = s.reports_dropped + inputs.length
      ∧ (hid_bridge_run s inputs).reports_forwarded = s.reports_forwarded := by
  have hd0 : s.reports_dropped < UINT32_MOD := by omega
  have h : (hid_bridge_run s inputs).reports_dropped
        = (s.reports_dropped + inputs.length) % UINT32_MOD
      ∧ (hid_bridge_run s inputs).reports_forwarded = s.reports_forwarded := by
    rcases hrej with hnc | ⟨hs, hall⟩
    · exact run_not_ready inputs s hnc hd0
    · cases hcfg : s.usb.usb_configured with
      | false => exact run_not_ready inputs s hcfg hd0
      | true => exact run_busy inputs s hcfg hs hall hd0
  exact ⟨by rw [h.1]; exact Nat.mod_eq_of_lt hd, h.2⟩

/-- Witness for C5 with N = 2 in both rejection modes: two busy-slot
deliveries from a configured sink with the slot held, and two not-ready
deliveries from an unconfigured sink. -/
theorem C5_backpressure_drop_accounting_witness :
    (hid_bridge_run
        ⟨0, 0, 0, List.replicate 8 0, ⟨true, false⟩⟩
        [([2, 0, 4, 0, 0, 0, 0, 0], ⟨false, true⟩),
         ([2, 0, 5, 0, 0, 0, 0, 0], ⟨false, true⟩)]).reports_dropped = 2
      ∧ (hid_bridge_run
          ⟨0, 0, 0, List.replicate 8 0, ⟨true, false⟩⟩
          [([2, 0, 4, 0, 0, 0, 0, 0], ⟨false, true⟩),
           ([2, 0, 5, 0, 0, 0, 0, 0], ⟨false, true⟩)]).reports_forwarded = 0
      ∧ (hid_bridge_run
          ⟨0, 0, 0, List.replicate 8 0, ⟨false, true⟩⟩
          [([2, 0, 4, 0, 0, 0, 0, 0], ⟨true, true⟩),
           ([2, 0, 5, 0, 0, 0, 0, 0], ⟨true, true⟩)]).reports_dropped = 2
      ∧ (hid_bridge_run
          ⟨0, 0, 0, List.replicate 8 0, ⟨false, true⟩⟩
          [([2, 0, 4, 0, 0, 0, 0, 0], ⟨true, true⟩),
           ([2, 0, 5, 0, 0, 0, 0, 0], ⟨true, true⟩)]).reports_forwarded = 0 := by
  have hbusy := C5_backpressure_drop_accounting
    ⟨0, 0, 0, List.replicate 8 0, ⟨true, false⟩⟩
    [([2, 0, 4, 0, 0, 0, 0, 0], ⟨false, true⟩),
     ([2, 0, 5, 0, 0, 0, 0, 0], ⟨false, true⟩)]
    (Or.inr ⟨rfl, by decide⟩) (by decide)
  have hnr := C5_backpressure_drop_accounting
    ⟨0, 0, 0, List.replicate 8 0, ⟨false, true⟩⟩
    [([2, 0, 4, 0, 0, 0, 0, 0], ⟨true, true⟩),
     ([2, 0, 5, 0, 0, 0, 0, 0], ⟨true, true⟩)]
    (Or.inl rfl) (by decide)
  exact ⟨hbusy.1, hbusy.2, hnr.1, hnr.2⟩

/-- C9: every completed invocation of the report handler increments
`reports_received` by 1 and exactly one of `reports_forwarded` or
`reports_dropped` by 1 (as 32-bit counters), and consequently along any run
short enough not to wrap the counters the invariant
`received = forwarded + dropped` is preserved. -/
theorem C9_statistics_invariant :
    (∀ (s : BridgeState) (r : List Byte) (env : SendEnv),
        (hid_bridge_handle_report s r env).state.reports_received
            = inc32 s.reports_received
          ∧ (((hid_bridge_handle_report s r env).state.reports_forwarded
                  = inc32 s.reports_forwarded
                ∧ (hid_bridge_handle_report s r env).state.reports_dropped
                  = s.reports_dropped)
              ∨ ((hid_bridge_handle_report s r env).state.reports_forwarded
                  = s.reports_forwarded
                ∧ (hid_bridge_handle_report s r env).state.reports_dropped
                  = inc32 s.reports_dropped)))
      ∧ (∀ (inputs : List (List Byte × SendEnv)) (s : BridgeState),
          s.reports_received = s.reports_forwarded + s.reports_dropped →
          s.reports_received + inputs.length < UINT32_MOD →
          (hid_bridge_run s inputs).reports_received
            = (hid_bridge_run s inputs).reports_forwarded
                + (hid_bridge_run s inputs).reports_dropped) := by
  exact ⟨fun s r env => ⟨handle_report_received s r env, handle_report_counters s r env⟩,
    run_stats_invariant⟩

/-- Witness for C9: a two-report run (one forwarded, one dropped) from the
all-zero initial state keeps `received = forwarded + dropped`. -/
theorem C9_statistics_invariant_witness :
    (hid_bridge_handle_report ⟨0, 0, 0, List.replicate 8 0, ⟨true, true⟩⟩
        [2, 0, 4, 0, 0, 0, 0, 0] ⟨false, true⟩).state.reports_received = 1
      ∧ (hid_bridge_run ⟨0, 0, 0, List.replicate 8 0, ⟨true, true⟩⟩
          [([2, 0, 4, 0, 0, 0, 0, 0], ⟨false, true⟩),
           ([2, 0, 5, 0, 0, 0, 0, 0], ⟨false, false⟩)]).reports_received
        = (hid_bridge_run ⟨0, 0, 0, List.replicate 8 0, ⟨true, true⟩⟩
            [([2, 0, 4, 0, 0, 0, 0, 0], ⟨false, true⟩),
             ([2, 0, 5, 0, 0, 0, 0, 0], ⟨false, false⟩)]).reports_forwarded
            + (hid_bridge_run ⟨0, 0, 0, List.replicate 8 0, ⟨true, true⟩⟩
                [([2, 0, 4, 0, 0, 0, 0, 0], ⟨false, true⟩),
                 ([2, 0, 5, 0, 0, 0, 0, 0], ⟨false, false⟩)]).reports_dropped := by
  have h := C9_statistics_invariant
  constructor
  · have h1 := (h.1 ⟨0, 0, 0, List.replicate 8 0, ⟨true, true⟩⟩
      [2, 0, 4, 0, 0, 0, 0, 0] ⟨false, true⟩).1
    rw [h1]
    decide
  · exact h.2
      [([2, 0, 4, 0, 0, 0, 0, 0], ⟨false, true⟩),
       ([2, 0, 5, 0, 0, 0, 0, 0], ⟨false, false⟩)]
      ⟨0, 0, 0, List.replicate 8 0, ⟨true, true⟩⟩ rfl (by decide)

lemma translate_boot_id (x : List Byte) (hx : x.length = BOOT_REPORT_LEN) :
    translate x = x := by
  have h15 : ¬ x.length = NKRO_REPORT_LEN := by
    rw [hx]
    decide
  unfold translate
  rw [if_neg h15, if_pos hx]

/-- Counterexample to C4 as stated: an 8-byte input with an empty slot
between two occupied slots is copied verbatim by the translator, so the
produced canonical report violates the no-gaps packing invariant. -/
theorem C4_packed_invariant_counterexample :
    translate [0, 0, 5, 0, 6, 0, 0, 0] = [0, 0, 5, 0, 6, 0, 0, 0]
      ∧ ¬ noGapSlots ((translate [0, 0, 5, 0, 6, 0, 0, 0]).drop 2) := by
  constructor
  · decide
  · decide

/-- C4 (amended): every canonical report produced from a 15-byte bitmap
input has at most 6 non-zero key slots packed low-to-high with no gaps; a
report produced by verbatim copy of an 8-byte input satisfies the packing
invariant whenever the input's slots already do. -/
theorem C4_packed_invariant_amended :
    (∀ nkro : List Byte, nkro.length = NKRO_REPORT_LEN →
        ((translate nkro).drop 2).length = 6
          ∧ List.countP (fun b => !(b == 0)) ((translate nkro).drop 2) ≤ 6
          ∧ noGapSlots ((translate nkro).drop 2))
      ∧ (∀ x : List Byte, x.length = BOOT_REPORT_LEN →
          noGapSlots (x.drop 2) → noGapSlots ((translate x).drop 2)) := by
  constructor
  · intro nkro hlen
    have ht : translate nkro = nkro_to_boot nkro := by
      unfold translate
      rw [if_pos hlen]
    have hkle : (nkroKeys nkro).length ≤ 6 := by
      rw [nkroKeys_eq_spec, List.length_take]
      exact Nat.min_le_left _ _
    have hlen6 : ((translate nkro).drop 2).length = 6 := by
      rw [ht, nkro_to_boot_slots, List.length_append, List.length_replicate]
      unfold BOOT_MAX_KEYS
      omega
    have hcount : List.countP (fun b => !(b == 0)) ((translate nkro).drop 2)
        ≤ ((translate nkro).drop 2).length := List.countP_le_length _
    refine ⟨hlen6, by omega, ?_⟩
    rw [ht, nkro_to_boot_slots]
    exact noGapSlots_keys_pad nkro
  · intro x hx hng
    rw [translate_boot_id x hx]
    exact hng

/-- Witness for the amended C4: packing holds for a translated one-key
bitmap report and for a verbatim-copied packed boot report. -/
theorem C4_packed_invariant_amended_witness :
    noGapSlots ((translate [2, 0, 16, 0, 0, 0, 0, 0, 0, 0, 0, 0, 0, 0, 0]).drop 2)
      ∧ noGapSlots ((translate [2, 0, 4, 5, 0, 0, 0, 0]).drop 2) := by
  have h := C4_packed_invariant_amended
  exact ⟨(h.1 [2, 0, 16, 0, 0, 0, 0, 0, 0, 0, 0, 0, 0, 0, 0] (by decide)).2.2,
    h.2 [2, 0, 4, 5, 0, 0, 0, 0] (by decide) (by decide)⟩

/-- C8: a report whose length is neither 8 nor 15 is translated best-effort
(copy `min(len, 8)` bytes, zero-fill the rest), the diagnostic warning is
emitted, no error is raised, and the padded report is still handed to the
Output Sink whenever the sink interface is configured, exactly like a
well-formed report. -/
theorem C8_malformed_best_effort (s : BridgeState) (report : List Byte) (env : SendEnv)
    (h8 : report.length ≠ BOOT_REPORT_LEN) (h15 : report.length ≠ NKRO_REPORT_LEN) :
    translate report
        = report.take BOOT_REPORT_LEN
            ++ List.replicate (BOOT_REPORT_LEN - min report.length BOOT_REPORT_LEN) 0
      ∧ (hid_bridge_handle_report s report env).warned = true
      ∧ (s.usb.usb_configured = true →
          (hid_bridge_handle_report s report env).sinkCall = some (translate report)) := by
  refine ⟨?_, ?_, fun hc => handle_report_sinkCall s report env hc⟩
  · unfold translate
    rw [if_neg h15, if_neg h8]
  · rw [handle_report_warned]
    simp [h15, h8]

/-- Witness for C8 at a 3-byte report with the sink configured. -/
theorem C8_malformed_best_effort_witness :
    translate [2, 0, 4] = [2, 0, 4, 0, 0, 0, 0, 0]
      ∧ (hid_bridge_handle_report ⟨0, 0, 0, List.replicate 8 0, ⟨true, true⟩⟩
          [2, 0, 4] ⟨false, true⟩).warned = true
      ∧ (hid_bridge_handle_report ⟨0, 0, 0, List.replicate 8 0, ⟨true, true⟩⟩
          [2, 0, 4] ⟨false, true⟩).sinkCall = some (translate [2, 0, 4]) := by
  have h := C8_malformed_best_effort ⟨0, 0, 0, List.replicate 8 0, ⟨true, true⟩⟩
    [2, 0, 4] ⟨false, true⟩ (by decide) (by decide)
  refine ⟨?_, h.2.1, h.2.2 rfl⟩
  rw [h.1]
  decide

/-- C6: `send` fails with NotReady and has no other effect whenever the host
interface is not configured; otherwise it waits for the single in-flight
slot (the wait is bounded by the 100 ms timeout constant) and fails with
Busy when the previous report has not completed within the window; on
success it returns with the slot still held, and the slot is released only
by the completion callback `int_in_ready_cb`. -/
theorem C6_send_contract :
    (∀ (s : UsbState) (r : List Byte) (env : SendEnv), s.usb_configured = false →
        app_usb_hid_send_report s r env
          = { result := .notReady, state := s, logs := [], written := none })
      ∧ (∀ (s : UsbState) (r : List Byte) (env : SendEnv),
          s.usb_configured = true → s.hid_sem = false → env.completionArrives = false →
          (app_usb_hid_send_report s r env).result = .busy
            ∧ (app_usb_hid_send_report s r env).state = s)
      ∧ (∀ (s : UsbState) (r : List Byte) (env : SendEnv),
          s.usb_configured = true → (s.hid_sem = true ∨ env.completionArrives = true) →
          env.writeOk = true →
          (app_usb_hid_send_report s r env).result = .ok
            ∧ (app_usb_hid_send_report s r env).state.hid_sem = false)
      ∧ (∀ s : UsbState, (int_in_ready_cb s).hid_sem = true)
      ∧ HID_SEM_TIMEOUT_MS = 100 := by
  refine ⟨send_not_ready, ?_, ?_, fun s => rfl, rfl⟩
  · intro s r env hc hs he
    rw [send_busy s r env hc hs he]
    exact ⟨rfl, rfl⟩
  · intro s r env hc hsem hw
    rw [send_ok s r env hc hsem hw]
    exact ⟨rfl, rfl⟩

/-- Witness for C6: NotReady on an unconfigured sink, Busy on a held slot
with no completion, success with the slot still held on a free slot. -/
theorem C6_send_contract_witness :
    app_usb_hid_send_report ⟨false, true⟩ empty_report ⟨false, true⟩
        = { result := SendResult.notReady, state := ⟨false, true⟩, logs := [],
            written := none }
      ∧ (app_usb_hid_send_report ⟨true, false⟩ empty_report ⟨false, true⟩).result
          = SendResult.busy
      ∧ (app_usb_hid_send_report ⟨true, true⟩ empty_report ⟨false, true⟩).result
          = SendResult.ok
      ∧ (app_usb_hid_send_report ⟨true, true⟩ empty_report ⟨false, true⟩).state.hid_sem
          = false := by
  have h := C6_send_contract
  exact ⟨h.1 ⟨false, true⟩ empty_report ⟨false, true⟩ rfl,
    (h.2.1 ⟨true, false⟩ empty_report ⟨false, true⟩ rfl rfl rfl).1,
    (h.2.2.1 ⟨true, true⟩ empty_report ⟨false, true⟩ rfl (Or.inl rfl) rfl).1,
    (h.2.2.1 ⟨true, true⟩ empty_report ⟨false, true⟩ rfl (Or.inl rfl) rfl).2⟩

/-- C10: when the endpoint write fails after the in-flight slot was
acquired, `send` gives the slot back before returning the error: the slot is
free afterwards, a slot-free starting state is left unchanged, and a
subsequent send can acquire the slot immediately without any completion
callback. -/
theorem C10_write_failure_releases_slot (s : UsbState) (r : List Byte) (env : SendEnv)
    (hc : s.usb_configured = true) (hsem : s.hid_sem = true ∨ env.completionArrives = true)
    (hw : env.writeOk = false) :
    (app_usb_hid_send_report s r env).result = .writeErr
      ∧ (app_usb_hid_send_report s r env).state.hid_sem = true
      ∧ (s.hid_sem = true → (app_usb_hid_send_report s r env).state = s)
      ∧ (∀ (r2 : List Byte) (env2 : SendEnv), env2.writeOk = true →
          (app_usb_hid_send_report (app_usb_hid_send_report s r env).state r2 env2).result
            = .ok) := by
  rw [send_write_err s r env hc hsem hw]
  dsimp only
  refine ⟨rfl, rfl, ?_, ?_⟩
  · intro htrue
    cases s
    simp_all
  · intro r2 env2 hw2
    rw [send_ok ⟨s.usb_configured, true⟩ r2 env2 hc (Or.inl rfl) hw2]

/-- Witness for C10: a failed write from a free-slot state leaves the state
unchanged and the next send succeeds. -/
theorem C10_write_failure_releases_slot_witness :
    (app_usb_hid_send_report ⟨true, true⟩ empty_report ⟨false, false⟩).state
        = (⟨true, true⟩ : UsbState)
      ∧ (app_usb_hid_send_report
          (app_usb_hid_send_report ⟨true, true⟩ empty_report ⟨false, false⟩).state
          empty_report ⟨false, true⟩).result = SendResult.ok := by
  have h := C10_write_failure_releases_slot ⟨true, true⟩ empty_report ⟨false, false⟩
    rfl (Or.inl rfl) rfl
  exact ⟨h.2.2.1 rfl, h.2.2.2 empty_report ⟨false, true⟩ rfl⟩

/-- Counterexample to C7 as stated: when the host interface is not
configured, `release_all` fails (NotReady) and no warning- or error-level
log entry is produced anywhere in the call, so this failure is silent. -/
theorem C7_release_all_counterexample :
    (app_usb_hid_release_all ⟨false, true⟩ ⟨true, true⟩).result ≠ SendResult.ok
      ∧ ((app_usb_hid_release_all ⟨false, true⟩ ⟨true, true⟩).logs.any LogEntry.isFailureLog)
          = false := by
  constructor
  · decide
  · decide

/-- C7 (amended): `release_all` behaves as `send` of the all-zero canonical
report; busy-timeout and endpoint-write failures are logged at warning or
error level, but a host-not-configured failure returns an error code with no
failure log; no failure blocks the disconnect teardown, which always clears
the stored report and proceeds to restart scanning. -/
theorem C7_release_all_amended :
    (∀ (s : UsbState) (env : SendEnv),
        (app_usb_hid_release_all s env).result
            = (app_usb_hid_send_report s empty_report env).result
          ∧ (app_usb_hid_release_all s env).state
            = (app_usb_hid_send_report s empty_report env).state
          ∧ (app_usb_hid_release_all s env).written
            = (app_usb_hid_send_report s empty_report env).written)
      ∧ (∀ (s : UsbState) (env : SendEnv),
          s.usb_configured = true → s.hid_sem = false → env.completionArrives = false →
          (app_usb_hid_release_all s env).logs.any LogEntry.isFailureLog = true)
      ∧ (∀ (s : UsbState) (env : SendEnv),
          s.usb_configured = true → (s.hid_sem = true ∨ env.completionArrives = true) →
          env.writeOk = false →
          (app_usb_hid_release_all s env).logs.any LogEntry.isFailureLog = true)
      ∧ (∀ (s : UsbState) (env : SendEnv),
          s.usb_configured = false →
          (app_usb_hid_release_all s env).logs.any LogEntry.isFailureLog = false)
      ∧ (∀ (bs : BridgeState) (env : SendEnv),
          (hid_bridge_on_disconnect bs env).1.last_report = List.replicate 8 0)
      ∧ (∀ (ss : SysState) (env : SendEnv),
          ss.ble.scanning = false →
          (disconnected ss env true).1.ble.scanning = true) := by
  refine ⟨fun s env => ⟨rfl, rfl, rfl⟩, ?_, ?_, ?_, fun bs env => rfl, ?_⟩
  · intro s env hc hs he
    unfold app_usb_hid_release_all
    dsimp only
    rw [send_busy s empty_report env hc hs he]
    rfl
  · intro s env hc hsem hw
    unfold app_usb_hid_release_all
    dsimp only
    rw [send_write_err s empty_report env hc hsem hw]
    rfl
  · intro s env hc
    unfold app_usb_hid_release_all
    dsimp only
    rw [send_not_ready s empty_report env hc]
    rfl
  · intro ss env hsc
    unfold disconnected ble_central_start_scan
    dsimp only
    simp [hsc]

/-- Witness for the amended C7: a busy failure is logged, a not-configured
failure is not, and the disconnect path still restarts scanning. -/
theorem C7_release_all_amended_witness :
    (app_usb_hid_release_all ⟨true, false⟩ ⟨false, true⟩).logs.any LogEntry.isFailureLog
        = true
      ∧ (app_usb_hid_release_all ⟨false, true⟩ ⟨false, true⟩).logs.any LogEntry.isFailureLog
          = false
      ∧ (disconnected ⟨⟨true, false⟩, ⟨0, 0, 0, List.replicate 8 0, ⟨true, true⟩⟩⟩
          ⟨false, true⟩ true).1.ble.scanning = true := by
  have h := C7_release_all_amended
  exact ⟨h.2.1 ⟨true, false⟩ ⟨false, true⟩ rfl rfl rfl,
    h.2.2.2.1 ⟨false, true⟩ ⟨false, true⟩ rfl,
    h.2.2.2.2.2 ⟨⟨true, false⟩, ⟨0, 0, 0, List.replicate 8 0, ⟨true, true⟩⟩⟩ ⟨false, true⟩ rfl⟩

/-- C1: on every disconnect, in every state, the Output Sink receives
exactly one send call, with the all-zero canonical report, and it occurs
before any scan restart; the handler's event trace is the all-zero send
optionally followed by the scan start, so no sink send happens after the new
scan begins. -/
theorem C1_disconnect_release_before_scan (s : SysState) (env : SendEnv)
    (scanStartOk : Bool) :
    ((disconnected s env scanStartOk).2 = [Event.sinkSend empty_report]
        ∨ (disconnected s env scanStartOk).2
            = [Event.sinkSend empty_report, Event.scanStart])
      ∧ (disconnected s env scanStartOk).2.filter Event.isSinkSend
          = [Event.sinkSend empty_report]
      ∧ empty_report = List.replicate 8 0
      ∧ (∀ pre post,
          (disconnected s env scanStartOk).2 = pre ++ Event.scanStart :: post →
          post.filter Event.isSinkSend = []) := by
  have htail : (ble_central_start_scan { s.ble with current_conn := false } scanStartOk).2 = []
      ∨ (ble_central_start_scan { s.ble with current_conn := false } scanStartOk).2
          = [Event.scanStart] := by
    unfold ble_central_start_scan
    dsimp only
    by_cases h1 : s.ble.scanning <;> by_cases h3 : scanStartOk <;> simp [h1, h3]
  have htr : (disconnected s env scanStartOk).2
      = Event.sinkSend empty_report ::
          (ble_central_start_scan { s.ble with current_conn := false } scanStartOk).2 := rfl
  rcases htail with h | h
  · rw [htr, h]
    refine ⟨Or.inl rfl, rfl, rfl, ?_⟩
    intro pre post heq
    cases pre with
    | nil => simp at heq
    | cons a t => simp at heq
  · rw [htr, h]
    refine ⟨Or.inr rfl, rfl, rfl, ?_⟩
    intro pre post heq
    cases pre with
    | nil => simp at heq
    | cons a t =>
      cases t with
      | nil =>
        simp at heq
        rw [heq.2]
        rfl
      | cons b u => simp at heq

/-- Witness for C1: from a connected, non-scanning state the disconnect
trace is the all-zero send followed by the scan start, and the tail after
the scan start holds no send. -/
theorem C1_disconnect_release_before_scan_witness :
    (disconnected ⟨⟨true, false⟩, ⟨0, 0, 0, List.replicate 8 0, ⟨true, true⟩⟩⟩
        ⟨false, true⟩ true).2.filter Event.isSinkSend = [Event.sinkSend empty_report]
      ∧ List.filter Event.isSinkSend ([] : List Event) = [] := by
  have h := C1_disconnect_release_before_scan
    ⟨⟨true, false⟩, ⟨0, 0, 0, List.replicate 8 0, ⟨true, true⟩⟩⟩ ⟨false, true⟩ true
  exact ⟨h.2.1, h.2.2.2 [Event.sinkSend empty_report] [] (by decide)⟩

end BleToHid
